import Mathlib

/-!
Verification of the place-name extraction and coordinate-collection
pipeline of the geocoding notebook (02-geocoding-module.ipynb).

The notebook's pipeline has four pieces of real logic, embedded here:

* the entity filter cell building `place_list` from the NER CSV rows;
* the resolver/collector loop building `place_coord` from the first 75
  entries of `place_list` (slice `place_list[:75]`), with a bare
  `except:` that turns any failure of the per-name processing into a
  printed "Could not find: <name>" diagnostic;
* the identical loop building `allcoordinates` from `moby_places`
  (no slice);
* the NLTK-tree chunker `get_placenames`.

Machine floats only flow through the pipeline opaquely (nothing is
computed with them), so coordinates are embedded as rationals.
-/

/-- A row of the NER result CSV: the cells read by the pipeline are the
columns `entity` and `type` (`r['entity']`, `r['type']`); the remaining
columns (volume, page) are opaque source-location metadata. -/
structure EntityRecord where
  entity : String
  type : String
  source_location : String
deriving DecidableEq

/-- The `place_list` cell: iterate the rows of the data frame in order and
append `r['entity']` whenever `r['type'] == 'LOCATION'`, else continue. -/
def place_list : List EntityRecord → List String
  | [] => []
  | r :: rest =>
    if r.type = "LOCATION" then r.entity :: place_list rest
    else place_list rest

/-- Modelled from the spec (section 4.1): the Entity Filter generalised to a
configurable accepted tag set — "produce a sequence of PlaceName containing
exactly the name field of each record whose type is a member of the accepted
set, in original order". The notebook instantiates this with the singleton
set containing LOCATION. -/
def entityFilterSpec (accepted : List String) : List EntityRecord → List String
  | [] => []
  | r :: rest =>
    if r.type ∈ accepted then r.entity :: entityFilterSpec accepted rest
    else entityFilterSpec accepted rest

/-- The record-level selection underlying the filter: the sub-sequence of
rows whose type is in the accepted set (the filter's output names are the
`entity` fields of exactly these rows). -/
def filterRecords (accepted : List String) (records : List EntityRecord) :
    List EntityRecord :=
  records.filter (fun r => decide (r.type ∈ accepted))

/-- The records of the filter scenario in the spec (section 8). -/
def demoRecords : List EntityRecord :=
  [⟨"Springfield", "LOCATION", "m1"⟩,
   ⟨"Acme Corp", "ORGANIZATION", "m2"⟩,
   ⟨"Paris", "LOCATION", "m3"⟩]

lemma entityFilterSpec_eq_filter_map (accepted : List String) :
    ∀ records : List EntityRecord,
      entityFilterSpec accepted records =
        (records.filter (fun r => decide (r.type ∈ accepted))).map
          (fun r => r.entity)
  | [] => rfl
  | r :: rest => by
    by_cases h : r.type ∈ accepted <;>
      simp [entityFilterSpec, List.filter, h,
        entityFilterSpec_eq_filter_map accepted rest]

lemma place_list_eq_entityFilterSpec :
    ∀ records : List EntityRecord,
      place_list records = entityFilterSpec ["LOCATION"] records
  | [] => rfl
  | r :: rest => by
    by_cases h : r.type = "LOCATION" <;>
      simp [place_list, entityFilterSpec, h,
        place_list_eq_entityFilterSpec rest]

/-- The universe of failures that the bare `except:` in the resolver loop
can observe: the geocoder returning no result for the query, or any other
exception raised inside the `try` block (network or configuration errors,
unpacking errors, and other programmer errors); the Python code does not
inspect the exception, so the embedding carries only an opaque message. -/
inductive GeoException where
  | notFound : GeoException
  | other (msg : String) : GeoException
deriving DecidableEq

/-- The geocoding capability `api.geocode`: a query either yields
`(fullname, (lat, lng))` or fails with some exception. -/
abbrev Geocoder := String → Except GeoException (String × ℚ × ℚ)

/-- Whether a geocoding call succeeded. -/
def exceptOk {α : Type} : Except GeoException α → Bool
  | .ok _ => true
  | .error _ => false

/-- The state built by one run of the resolver/collector loop: the
collected coordinate list, the "Could not find: <name>" diagnostics
printed, and the trace of queries submitted to the geocoder, each in
emission order. -/
structure ResolveOut where
  coords : List (ℚ × ℚ)
  diags : List String
  calls : List String
deriving DecidableEq

/-- The resolver/collector loop shared by the `place_coord`,
`allcoordinates`, `sample_coord` and `pl_coord` cells: for each name in
order, call `api.geocode(name)` once inside a `try`; on success unpack
`fullname, (lat, lng)` and append `(lng, lat)`; on any exception print
`Could not find: <name>` and continue with the next name. -/
def place_coord_loop (g : Geocoder) : List String → ResolveOut
  | [] => ⟨[], [], []⟩
  | n :: rest =>
    let out := place_coord_loop g rest
    match g n with
    | .ok (_, lat, lng) => ⟨(lng, lat) :: out.coords, out.diags, n :: out.calls⟩
    | .error _ =>
        ⟨out.coords, ("Could not find: " ++ n) :: out.diags, n :: out.calls⟩

/-- The `place_coord` cell: run the loop over `place_list[:75]`, i.e. over
only the first 75 filtered place names. -/
def place_coord (g : Geocoder) (pl : List String) : ResolveOut :=
  place_coord_loop g (pl.take 75)

/-- The `allcoordinates` cell: run the same loop over all of
`moby_places`, with no slice. -/
def allcoordinates (g : Geocoder) (moby_places : List String) : ResolveOut :=
  place_coord_loop g moby_places

/-- The success projection of a geocoder at one name: the collected
`(lng, lat)` pair, when the call succeeds. -/
def coordOf (g : Geocoder) (n : String) : Option (ℚ × ℚ) :=
  match g n with
  | .ok (_, lat, lng) => some (lng, lat)
  | .error _ => none

/-- The stub geocoder of the resolver scenario in the spec (section 8):
"Paris" resolves to latitude 48.8566, longitude 2.3522; every other query
fails. -/
def stubGeocoder : Geocoder := fun n =>
  if n = "Paris" then .ok ("Paris", (48.8566 : ℚ), (2.3522 : ℚ))
  else .error .notFound

lemma place_coord_loop_calls (g : Geocoder) :
    ∀ names : List String, (place_coord_loop g names).calls = names
  | [] => rfl
  | n :: rest => by
    cases h : g n with
    | ok r =>
      obtain ⟨full, lat, lng⟩ := r
      simp [place_coord_loop, h, place_coord_loop_calls g rest]
    | error e =>
      simp [place_coord_loop, h, place_coord_loop_calls g rest]

lemma place_coord_loop_coords (g : Geocoder) :
    ∀ names : List String,
      (place_coord_loop g names).coords = names.filterMap (coordOf g)
  | [] => rfl
  | n :: rest => by
    cases h : g n with
    | ok r =>
      obtain ⟨full, lat, lng⟩ := r
      simp [place_coord_loop, h, coordOf, place_coord_loop_coords g rest]
    | error e =>
      simp [place_coord_loop, h, coordOf, place_coord_loop_coords g rest]

lemma place_coord_loop_diags (g : Geocoder) :
    ∀ names : List String,
      (place_coord_loop g names).diags =
        (names.filter (fun n => !exceptOk (g n))).map
          (fun n => "Could not find: " ++ n)
  | [] => rfl
  | n :: rest => by
    cases h : g n with
    | ok r =>
      obtain ⟨full, lat, lng⟩ := r
      simp [place_coord_loop, h, exceptOk, List.filter,
        place_coord_loop_diags g rest]
    | error e =>
      simp [place_coord_loop, h, exceptOk, List.filter,
        place_coord_loop_diags g rest]

lemma place_coord_loop_length (g : Geocoder) :
    ∀ names : List String,
      (place_coord_loop g names).coords.length +
        (place_coord_loop g names).diags.length = names.length
  | [] => rfl
  | n :: rest => by
    have ih := place_coord_loop_length g rest
    cases h : g n with
    | ok r =>
      obtain ⟨full, lat, lng⟩ := r
      simp [place_coord_loop, h]
      omega
    | error e =>
      simp [place_coord_loop, h]
      omega

/-- An immediate child of the NLTK chunk tree handed to `get_placenames`:
either a plain part-of-speech-tagged token tuple, or a labelled sub-tree
carrying its flattened list of `(token, pos)` leaves (the only pieces of an
`nltk.Tree` node the code reads are `label()` and `leaves()`). -/
inductive NerNode where
  | leaf (token pos : String) : NerNode
  | subtree (label : String) (leaves : List (String × String)) : NerNode
deriving DecidableEq

/-- The test `type(node) == nltk.Tree and (node.label() == "GPE" or
node.label() == 'ORGANIZATION')` guarding the append branch. -/
def nodeAccepted : NerNode → Bool
  | .subtree lbl _ => lbl = "GPE" || lbl = "ORGANIZATION"
  | .leaf _ _ => false

/-- The string pushed onto `current_chunk` for an accepted node:
`" ".join([token for token, pos in node.leaves()])`. -/
def nodeJoin : NerNode → String
  | .subtree _ leaves => String.intercalate " " (leaves.map (fun tp => tp.1))
  | .leaf _ _ => ""

/-- The body of `get_placenames`, with the accumulators made explicit:
`cc` is `continuous_chunk` and `cur` is `current_chunk`. An accepted node
appends its joined leaves to `cur`; any other node, when `cur` is
non-empty, closes the run: join `cur` with a space, and only when the
joined string is not already in `cc`, append it to `cc` and reset `cur`
(on a duplicate neither happens, so `cur` keeps its stale contents); when
`cur` is empty, continue. The final `cur` is never flushed. The local
variable `prev` of the Python code is never read and has no counterpart. -/
def get_placenames_go (cc cur : List String) : List NerNode → List String
  | [] => cc
  | node :: rest =>
    if nodeAccepted node then
      get_placenames_go cc (cur ++ [nodeJoin node]) rest
    else if cur = [] then
      get_placenames_go cc cur rest
    else
      if String.intercalate " " cur ∈ cc then
        get_placenames_go cc cur rest
      else
        get_placenames_go (cc ++ [String.intercalate " " cur]) [] rest

/-- The function `get_placenames(parsed_tree)`: walk the immediate
children and return `continuous_chunk`. -/
def get_placenames (parsed_tree : List NerNode) : List String :=
  get_placenames_go [] [] parsed_tree

/-- Modelled from the spec (section 4.4): the buffers of the maximal
contiguous runs of accepted-label nodes that are closed by a following
non-matching node; a run still open when the node sequence ends is
dropped. `cur` is the buffer of the currently open run. -/
def closedRuns (cur : List String) : List NerNode → List (List String)
  | [] => []
  | node :: rest =>
    if nodeAccepted node then closedRuns (cur ++ [nodeJoin node]) rest
    else if cur = [] then closedRuns [] rest
    else cur :: closedRuns [] rest

/-- The space-joined strings of the closed maximal accepted runs of a
tree, in order, without deduplication. -/
def closedRunStrings (parsed_tree : List NerNode) : List String :=
  (closedRuns [] parsed_tree).map (String.intercalate " ")

/-- Like `closedRuns`, but also keeping a run still open when the node
sequence ends: the buffers of all maximal contiguous accepted runs. -/
def allRuns (cur : List String) : List NerNode → List (List String)
  | [] => if cur = [] then [] else [cur]
  | node :: rest =>
    if nodeAccepted node then allRuns (cur ++ [nodeJoin node]) rest
    else if cur = [] then allRuns [] rest
    else cur :: allRuns [] rest

/-- The space-joined strings of all maximal contiguous accepted runs of a
tree, the trailing open one included. -/
def allRunStrings (parsed_tree : List NerNode) : List String :=
  (allRuns [] parsed_tree).map (String.intercalate " ")

/-- Order-preserving first-occurrence deduplication, used to state the
"deduplicated within that single tree" reading of the extractor. -/
def dedupFirst_go (acc : List String) : List String → List String
  | [] => acc
  | s :: rest =>
    if s ∈ acc then dedupFirst_go acc rest
    else dedupFirst_go (acc ++ [s]) rest

/-- First-occurrence deduplication of a list of strings. -/
def dedupFirst (l : List String) : List String := dedupFirst_go [] l

/-- The scenario tree of the spec (section 8): two adjacent GPE-labelled
sub-trees with leaves New and York, followed by a non-matching node. -/
def nyTree : List NerNode :=
  [NerNode.subtree "GPE" [("New", "NNP")],
   NerNode.subtree "GPE" [("York", "NNP")],
   NerNode.leaf "is" "VBZ"]

/-- A tree whose last node leaves a GPE run still open. -/
def trailTree : List NerNode :=
  [NerNode.leaf "to" "TO", NerNode.subtree "GPE" [("Boston", "NNP")]]

/-- A tree on which the duplicate-closed-run path of `get_placenames`
fires: the run A closes twice; on the second close the buffer is not
reset, so the following run B is merged into it. -/
def staleBufferTree : List NerNode :=
  [NerNode.subtree "GPE" [("A", "NNP")], NerNode.leaf "x" "X",
   NerNode.subtree "GPE" [("A", "NNP")], NerNode.leaf "y" "X",
   NerNode.subtree "GPE" [("B", "NNP")], NerNode.leaf "z" "X"]

lemma get_placenames_go_spec :
    ∀ (t : List NerNode) (cc cur : List String),
      (cc ++ (closedRuns cur t).map (String.intercalate " ")).Nodup →
      get_placenames_go cc cur t =
        cc ++ (closedRuns cur t).map (String.intercalate " ")
  | [], cc, cur, _ => by simp [get_placenames_go, closedRuns]
  | node :: rest, cc, cur, h => by
    by_cases ha : nodeAccepted node
    · rw [closedRuns, if_pos ha] at h
      rw [get_placenames_go, if_pos ha, closedRuns, if_pos ha]
      exact get_placenames_go_spec rest cc (cur ++ [nodeJoin node]) h
    · by_cases hc : cur = ([] : List String)
      · rw [closedRuns, if_neg ha, if_pos hc] at h
        rw [get_placenames_go, if_neg ha, if_pos hc, closedRuns, if_neg ha,
          if_pos hc]
        subst hc
        exact get_placenames_go_spec rest cc [] h
      · rw [closedRuns, if_neg ha, if_neg hc] at h
        rw [get_placenames_go, if_neg ha, if_neg hc, closedRuns, if_neg ha,
          if_neg hc]
        have hmem : String.intercalate " " cur ∉ cc := by
          rw [List.nodup_append] at h
          exact fun hin =>
            h.2.2 hin (List.mem_cons_self (String.intercalate " " cur) _)
        rw [if_neg hmem]
        have h2 : ((cc ++ [String.intercalate " " cur]) ++
            (closedRuns [] rest).map (String.intercalate " ")).Nodup := by
          rw [List.append_assoc, List.singleton_append]
          simpa using h
        rw [get_placenames_go_spec rest (cc ++ [String.intercalate " " cur])
          [] h2, List.append_assoc, List.singleton_append]
        simp

lemma place_coord_loop_coords_length (g : Geocoder) :
    ∀ names : List String,
      (place_coord_loop g names).coords.length =
        names.countP (fun n => exceptOk (g n))
  | [] => rfl
  | n :: rest => by
    cases h : g n with
    | ok r =>
      obtain ⟨full, lat, lng⟩ := r
      simp [place_coord_loop, h, exceptOk, List.countP_cons,
        place_coord_loop_coords_length g rest]
    | error e =>
      simp [place_coord_loop, h, exceptOk, List.countP_cons,
        place_coord_loop_coords_length g rest]

lemma place_coord_loop_error_irrelevant (e e2 : GeoException) :
    ∀ names : List String,
      place_coord_loop (fun _ => .error e) names =
        place_coord_loop (fun _ => .error e2) names
  | [] => rfl
  | n :: rest => by
    simp [place_coord_loop, place_coord_loop_error_irrelevant e e2 rest]

/-- The two names of the resolver scenario in the spec (section 8). -/
def parisDemoNames : List String := ["Paris", "Qwxyzstan123"]

/-- A geocoder that resolves every query to a fixed location. -/
def alwaysOkGeocoder : Geocoder := fun _ => .ok ("x", (0 : ℚ), (0 : ℚ))

/-- A geocoder that fails every query with a no-result failure. -/
def notFoundGeocoder : Geocoder := fun _ => .error .notFound

/-- A geocoder whose every call raises a configuration/programmer error,
not a lookup failure. -/
def configErrorGeocoder : Geocoder :=
  fun _ => .error (.other "AttributeError: misconfigured geocoder client")

/-- A filtered place-name list that is longer than the 75-name slice. -/
def seventySixNames : List String := List.replicate 76 "Springfield"

/-- A filtered place-name list whose 76th name is distinct from the rest. -/
def overflowNames : List String := List.replicate 75 "a" ++ ["b"]

/-- Claim C1: for every input sequence of entity records and accepted tag
set, the Entity Filter's output equals the sub-sequence of the records'
name fields whose type is a member of the accepted set, in original order,
with output length at most input length; the notebook's `place_list` is
this filter at the singleton accepted set containing LOCATION, and on the
scenario records it yields Springfield and Paris. -/
theorem claim1_filter_correctness :
    (∀ (accepted : List String) (records : List EntityRecord),
      entityFilterSpec accepted records =
        (records.filter (fun r => decide (r.type ∈ accepted))).map
          (fun r => r.entity) ∧
      (entityFilterSpec accepted records).length ≤ records.length) ∧
    (∀ records : List EntityRecord,
      place_list records = entityFilterSpec ["LOCATION"] records) ∧
    place_list demoRecords = ["Springfield", "Paris"] := by
  refine ⟨fun accepted records => ⟨entityFilterSpec_eq_filter_map accepted records, ?_⟩,
    place_list_eq_entityFilterSpec, by decide⟩
  rw [entityFilterSpec_eq_filter_map accepted records, List.length_map]
  exact List.length_filter_le _ _

/-- Claim C2 counterexample: with a geocoder that resolves every query and
a filtered list of 76 names, the run logs no failure, yet the coordinate
list is one shorter than the filtered list (the slice `place_list[:75]`
drops the 76th name), so the shortfall does not equal the number of
logged failures. -/
theorem claim2_counterexample :
    (place_coord alwaysOkGeocoder seventySixNames).diags = [] ∧
    (place_coord alwaysOkGeocoder seventySixNames).coords.length = 75 ∧
    seventySixNames.length = 76 ∧
    ¬ (seventySixNames.length -
        (place_coord alwaysOkGeocoder seventySixNames).coords.length =
        (place_coord alwaysOkGeocoder seventySixNames).diags.length) := by
  refine ⟨by decide, by decide, by decide, by decide⟩

/-- Claim C2 amended: after every run, the coordinate list is at most as
long as the filtered place-name list, and the length of the resolver's
input minus the coordinate-list length equals the number of logged
failures; for the CSV pipeline `place_coord` the resolver's input is only
the first 75 filtered names, while for the tree pipeline `allcoordinates`
it is the whole list, so there the shortfall against the input equals the
failure count exactly as originally stated. -/
theorem claim2_amended (g : Geocoder) (pl moby_places : List String) :
    (place_coord g pl).coords.length ≤ pl.length ∧
    (place_coord g pl).coords.length + (place_coord g pl).diags.length =
      (pl.take 75).length ∧
    (allcoordinates g moby_places).coords.length +
      (allcoordinates g moby_places).diags.length = moby_places.length := by
  refine ⟨?_, place_coord_loop_length g (pl.take 75),
    place_coord_loop_length g moby_places⟩
  have h := place_coord_loop_length g (pl.take 75)
  have h2 : (pl.take 75).length ≤ pl.length := by
    simp [List.length_take]
  calc (place_coord g pl).coords.length
      ≤ (pl.take 75).length := by
        unfold place_coord
        omega
    _ ≤ pl.length := h2

/-- Claim C3 counterexample: the CSV pipeline submits only the first 75
filtered names to the geocoder, so with a filtered list whose 76th name is
distinct, that name is in the filtered list but never appears in the call
trace — not every place name in the filtered list is submitted. -/
theorem claim3_counterexample :
    "b" ∈ overflowNames ∧
    "b" ∉ (place_coord notFoundGeocoder overflowNames).calls := by
  refine ⟨by decide, by decide⟩

/-- Claim C3 amended: the resolver performs exactly one geocoding call per
element of its input sequence, in order, with no retry and no skipped
input; its input in the CSV pipeline is only the first 75 names of the
filtered list (so later filtered names are never submitted), while the
tree pipeline submits every filtered name exactly once. -/
theorem claim3_amended (g : Geocoder) (names pl moby_places : List String) :
    (place_coord_loop g names).calls = names ∧
    (place_coord g pl).calls = pl.take 75 ∧
    (allcoordinates g moby_places).calls = moby_places :=
  ⟨place_coord_loop_calls g names, place_coord_loop_calls g (pl.take 75),
    place_coord_loop_calls g moby_places⟩

/-- Claim C4: for every input sequence containing a mix of resolvable and
unresolvable names, the resolver consumes the entire sequence (the call
trace covers every input name, so the run finishes) and the collector's
output length equals exactly the count of resolvable names in the input. -/
theorem claim4_forward_progress (g : Geocoder) (names : List String)
    (_hmix1 : ∃ n ∈ names, exceptOk (g n) = true)
    (_hmix2 : ∃ n ∈ names, exceptOk (g n) = false) :
    (place_coord_loop g names).calls = names ∧
    (place_coord_loop g names).coords.length =
      names.countP (fun n => exceptOk (g n)) :=
  ⟨place_coord_loop_calls g names, place_coord_loop_coords_length g names⟩

/-- Claim C4 witness: the scenario input with one resolvable and one
unresolvable name. -/
theorem claim4_witness :
    (place_coord_loop stubGeocoder parisDemoNames).calls = parisDemoNames ∧
    (place_coord_loop stubGeocoder parisDemoNames).coords.length =
      parisDemoNames.countP (fun n => exceptOk (stubGeocoder n)) :=
  claim4_forward_progress stubGeocoder parisDemoNames
    ⟨"Paris", by decide, by decide⟩ ⟨"Qwxyzstan123", by decide, by decide⟩

/-- Claim C5: the collected pair for every successfully geocoded place
name inverts the geocoder's `(lat, lng)` return shape into `(lng, lat)`
(the coordinate list is the input's image under `coordOf`, which swaps the
components), and on the scenario the stub geocoder yields exactly the
collected list with longitude first and one diagnostic for the
unresolvable name. -/
theorem claim5_lnglat_inversion :
    (∀ (g : Geocoder) (names : List String),
      (place_coord_loop g names).coords = names.filterMap (coordOf g)) ∧
    (place_coord_loop stubGeocoder parisDemoNames).coords =
      [((2.3522 : ℚ), (48.8566 : ℚ))] ∧
    (place_coord_loop stubGeocoder parisDemoNames).diags =
      ["Could not find: Qwxyzstan123"] :=
  ⟨place_coord_loop_coords, rfl, by decide⟩

/-- Claim C6: for every place name on which the geocoding call fails, with
any failure value, the loop emits exactly one diagnostic naming it
(the diagnostics are exactly the Could-not-find lines of the failed names,
in order), appends nothing to the coordinate list for it (successes and
diagnostics partition the input count), and still submits every name (the
run never aborts because of a failed lookup). -/
theorem claim6_failure_handling (g : Geocoder) (names : List String) :
    (place_coord_loop g names).diags =
      (names.filter (fun n => !exceptOk (g n))).map
        (fun n => "Could not find: " ++ n) ∧
    (place_coord_loop g names).coords.length +
      (place_coord_loop g names).diags.length = names.length ∧
    (place_coord_loop g names).calls = names :=
  ⟨place_coord_loop_diags g names, place_coord_loop_length g names,
    place_coord_loop_calls g names⟩

/-- Claim C7 counterexample: on the stale-buffer tree the extractor
returns A followed by the merged string A B, not the deduplicated list of
the space-joined closed maximal accepted runs (which is A then B), so the
claimed description of the output does not hold for every parse tree. -/
theorem claim7_counterexample :
    get_placenames staleBufferTree = ["A", "A B"] ∧
    dedupFirst (closedRunStrings staleBufferTree) = ["A", "B"] ∧
    get_placenames staleBufferTree ≠
      dedupFirst (closedRunStrings staleBufferTree) := by
  refine ⟨by decide, by decide, by decide⟩

/-- Claim C7 amended: for every parse tree whose closed maximal
accepted-label runs join to pairwise distinct strings (so the tree-local
deduplication never rejects a run and the buffer is always reset), the
extractor returns, in order, exactly the space-joined token runs of the
maximal contiguous accepted-label sub-tree runs that are closed by a
non-matching node, a run still open at the end of the node sequence being
silently dropped; on a tree with a duplicate closed run the buffer is not
reset and later runs merge (claim C10). The scenarios hold as stated: the
adjacent GPE leaves New and York closed by a non-matching node yield
exactly the string New York, and a tree ending in an open GPE run omits
that run (Boston is an open run of the tree yet absent from its output). -/
theorem claim7_amended (t : List NerNode)
    (h : (closedRunStrings t).Nodup) :
    get_placenames t = closedRunStrings t ∧
    get_placenames nyTree = ["New York"] ∧
    get_placenames trailTree = [] ∧
    "Boston" ∈ allRunStrings trailTree := by
  refine ⟨?_, by decide, by decide, by decide⟩
  have h2 : (([] : List String) ++
      (closedRuns [] t).map (String.intercalate " ")).Nodup := by
    simpa [closedRunStrings] using h
  simpa [closedRunStrings] using get_placenames_go_spec t [] [] h2

/-- Claim C7 amended witness: the New York scenario tree has pairwise
distinct closed-run strings, and on it the amended description holds. -/
theorem claim7_witness :
    (closedRunStrings nyTree).Nodup ∧
    (get_placenames nyTree = closedRunStrings nyTree ∧
      get_placenames nyTree = ["New York"] ∧
      get_placenames trailTree = [] ∧
      "Boston" ∈ allRunStrings trailTree) :=
  ⟨by decide, claim7_amended nyTree (by decide)⟩

/-- Claim C8 counterexample: a geocoder whose every call raises a
configuration error — a programmer error, not a lookup failure — does not
make the loop propagate: the bare catch converts the error into a
Could-not-find diagnostic and the run returns normally, having submitted
the whole input. -/
theorem claim8_counterexample :
    place_coord_loop configErrorGeocoder ["Paris"] =
      ⟨[], ["Could not find: Paris"], ["Paris"]⟩ := by
  decide

/-- Claim C8 amended: every failure raised inside the try block of the
resolver loop, programmer and configuration errors included, is caught by
the bare catch-all and converted into a Could-not-find diagnostic, after
which the loop continues with the next name; the loop cannot distinguish
failure kinds, so a run under any non-lookup error behaves exactly as a
run in which every lookup merely found no result. -/
theorem claim8_amended (msg : String) (names : List String) :
    place_coord_loop (fun _ => .error (.other msg)) names =
      place_coord_loop (fun _ => .error .notFound) names ∧
    (place_coord_loop (fun _ => .error (.other msg)) names).diags =
      names.map (fun n => "Could not find: " ++ n) ∧
    (place_coord_loop (fun _ => .error (.other msg)) names).calls = names := by
  refine ⟨place_coord_loop_error_irrelevant (.other msg) .notFound names,
    ?_, place_coord_loop_calls _ names⟩
  rw [place_coord_loop_diags]
  simp [exceptOk]

/-- Claim C9: filtering is idempotent — the record-level selection with a
fixed accepted set is a fixed point of itself, so applying the Entity
Filter to a sequence that is already the output of the Filter under the
same accepted set yields that sequence unchanged, both at the record level
and for the extracted names; the notebook filter `place_list` is exactly
the name projection of the record-level selection at LOCATION. -/
theorem claim9_filter_idempotent :
    (∀ (accepted : List String) (records : List EntityRecord),
      filterRecords accepted (filterRecords accepted records) =
        filterRecords accepted records) ∧
    (∀ (accepted : List String) (records : List EntityRecord),
      entityFilterSpec accepted (filterRecords accepted records) =
        entityFilterSpec accepted records) ∧
    (∀ records : List EntityRecord,
      place_list records =
        (filterRecords ["LOCATION"] records).map (fun r => r.entity)) := by
  have hidem : ∀ (accepted : List String) (records : List EntityRecord),
      filterRecords accepted (filterRecords accepted records) =
        filterRecords accepted records := by
    intro accepted records
    simp [filterRecords, List.filter_filter]
  refine ⟨hidem, fun accepted records => ?_, fun records => ?_⟩
  · rw [entityFilterSpec_eq_filter_map, entityFilterSpec_eq_filter_map]
    show (filterRecords accepted (filterRecords accepted records)).map _ =
      (filterRecords accepted records).map _
    rw [hidem]
  · rw [place_list_eq_entityFilterSpec, entityFilterSpec_eq_filter_map]
    rfl

/-- Claim C10: when a closed run's joined string is already in the output
the buffer is not reset, so the next accepted node extends the stale
buffer: on the stale-buffer tree the output contains the merged string
A B, which is not the space-joined token run of any single maximal
contiguous accepted-label span of that tree (those runs join to A, A and
B, the trailing open run included). -/
theorem claim10_stale_buffer :
    get_placenames staleBufferTree = ["A", "A B"] ∧
    "A B" ∈ get_placenames staleBufferTree ∧
    "A B" ∉ allRunStrings staleBufferTree ∧
    allRunStrings staleBufferTree = ["A", "A", "B"] := by
  refine ⟨by decide, by decide, by decide, by decide⟩
